import Mathlib

/-!
Shallow embedding of the coverage aggregation engine of
`src/coverage_subagent/coverage_subagent.py` (functions
`_parse_and_filter_report` and `read_coverage_report`) together with the
response schema `CoverageSummaryResponse` of
`src/shared_utils/schema_utils.py`.

Python floats produced by `covered / (missed + covered)` are modelled as
exact rationals (`ℚ`); machine integers read from the XML attributes are
modelled as `Nat`, matching the file-format contract that `missed` and
`covered` are non-negative integers.  A JaCoCo XML document is modelled by
the structure the parser actually consumes: a list of `package` elements,
each holding `class` elements, each holding its direct `counter` children;
a `corrupt` item models a malformed document that makes `lxml.iterparse`
raise part-way through the stream.
-/

namespace CoverageSubagent

/-- Lowercase a string (ASCII), modelling Python `re.IGNORECASE` matching
against the all-lowercase literal patterns used by the code. -/
def lowerStr (s : String) : String := String.mk (s.data.map Char.toLower)

/-- `name.replace("/", ".")` as applied to package and class name
attributes. -/
def normalizeName (s : String) : String :=
  String.mk (s.data.map (fun c => if c == '/' then '.' else c))

/-- Whether the first list is an initial segment of the second. -/
def listIsPre : List Char → List Char → Bool
  | [], _ => true
  | _ :: _, [] => false
  | a :: as, b :: bs => a == b && listIsPre as bs

/-- Python `str.startswith`. -/
def strStartsWith (s pat : String) : Bool := listIsPre pat.data s.data

/-- Python `str.endswith`. -/
def strEndsWith (s pat : String) : Bool :=
  listIsPre pat.data.reverse s.data.reverse

/-- Whether `sub` occurs as a contiguous run inside `s`. -/
def listHasSub (sub : List Char) : List Char → Bool
  | [] => sub.isEmpty
  | c :: rest => listIsPre sub (c :: rest) || listHasSub sub rest

/-- The fixed `exclude_patterns` list of `read_coverage_report`:
`[r"\.generated\.", r"\.dto\.", r"\.model\.", r"\.exception\."]`.  Each is
a regex that escapes its dots, so `re.search(p, name, re.IGNORECASE)`
is a case-insensitive substring test for the literal written here. -/
def excludeLiterals : List String :=
  [".generated.", ".dto.", ".model.", ".exception."]

/-- `any(re.search(p, name, re.IGNORECASE) for p in exclude_patterns)`. -/
def matchesExclusion (name : String) : Bool :=
  excludeLiterals.any (fun p => listHasSub p.data (lowerStr name).data)

/-- The `skip_current_package` flag computed at a `package` start event:
set when `targets_p` is non-empty and no target is a leading piece of the
package name, or when the package name matches an exclusion pattern. -/
def packageSkipped (pkgName : String) (targets_p : List String) : Bool :=
  (!targets_p.isEmpty && !targets_p.any (fun p => strStartsWith pkgName p))
    || matchesExclusion pkgName

/-- The class-level scope test of `_parse_and_filter_report`: vacuously
true when `targets_c` is empty, else the class name must equal an entry or
end with `"." + ` an entry. -/
def classTargetMatch (clsName : String) (targets_c : List String) : Bool :=
  targets_c.isEmpty
    || targets_c.any (fun t => clsName == t || strEndsWith clsName ("." ++ t))

/-- The effective per-class include decision of the code, read off the
control flow of `_parse_and_filter_report` (package skip, then class-level
exclusion, then class-level scope matching). -/
def classDecision (targets_p targets_c : List String)
    (pkgName clsName : String) : Bool :=
  !packageSkipped pkgName targets_p
    && !matchesExclusion clsName
    && classTargetMatch clsName targets_c

/-- The class-level part of the include decision, taking the already
computed package-skip flag. -/
def classKeep (targets_c : List String) (skip : Bool)
    (clsName : String) : Bool :=
  !skip && !matchesExclusion clsName && classTargetMatch clsName targets_c

/-- One `counter` element: `type`, `missed`, `covered` attributes. -/
structure JCounter where
  ctype : String
  missed : Nat
  covered : Nat
deriving DecidableEq

/-- One `class` element: its raw slash-separated `name` attribute and its
direct `counter` children, in document order. -/
structure JClass where
  name : String
  counters : List JCounter
deriving DecidableEq

/-- One `package` element: raw `name` attribute and `class` children. -/
structure JPackage where
  name : String
  classes : List JClass
deriving DecidableEq

/-- A top-level item of a report document: a parsed `package` element, or
a corruption point at which `lxml` raises. -/
inductive JItem where
  | pkg : JPackage → JItem
  | corrupt : JItem
deriving DecidableEq

/-- A report file as consumed by the streaming parse. -/
abbrev JFile := List JItem

/-- The dict returned by `_parse_and_filter_report` on success. -/
structure ParseResult where
  lines_missed : Nat
  lines_covered : Nat
  branches_missed : Nat
  branches_covered : Nat
  class_data : List (String × ℚ)
deriving DecidableEq

/-- The accumulator state of the per-class counter loop: `c_l_m`, `c_l_c`
(last LINE counter seen) and the four deltas added to the file totals. -/
structure ClassAcc where
  c_l_m : Nat
  c_l_c : Nat
  lm : Nat
  lc : Nat
  bm : Nat
  bc : Nat
deriving DecidableEq

/-- One step of the `for child in elem` counter loop inside the class
branch of `_parse_and_filter_report`. -/
def processCounter (a : ClassAcc) (k : JCounter) : ClassAcc :=
  if k.ctype == "LINE" then
    { a with c_l_m := k.missed, c_l_c := k.covered,
             lm := a.lm + k.missed, lc := a.lc + k.covered }
  else if k.ctype == "BRANCH" then
    { a with bm := a.bm + k.missed, bc := a.bc + k.covered }
  else a

/-- The counter totals of a class element. -/
def classAccOf (c : JClass) : ClassAcc :=
  c.counters.foldl processCounter ⟨0, 0, 0, 0, 0, 0⟩

/-- Handling of one `class` end event: skip if the package is skipped,
then exclusion patterns, then class-level scope, then fold the counters
into the running totals and record the class ratio when it has line
units. -/
def processClass (targets_c : List String) (r : ParseResult)
    (skipPkg : Bool) (c : JClass) : ParseResult :=
  if skipPkg then r
  else
    let clsName := normalizeName c.name
    if matchesExclusion clsName then r
    else if !classTargetMatch clsName targets_c then r
    else
      let a := classAccOf c
      { lines_missed := r.lines_missed + a.lm
        lines_covered := r.lines_covered + a.lc
        branches_missed := r.branches_missed + a.bm
        branches_covered := r.branches_covered + a.bc
        class_data := r.class_data ++
          (if a.c_l_m + a.c_l_c > 0 then
            [(clsName, (a.c_l_c : ℚ) / ((a.c_l_m : ℚ) + (a.c_l_c : ℚ)))]
          else []) }

/-- Handling of one `package` element: compute `skip_current_package` at
its start event, then process each class end event. -/
def processPackage (targets_p targets_c : List String) (r : ParseResult)
    (p : JPackage) : ParseResult :=
  let skip := packageSkipped (normalizeName p.name) targets_p
  p.classes.foldl (fun r c => processClass targets_c r skip c) r

/-- The starting totals of a parse. -/
def emptyResult : ParseResult := ⟨0, 0, 0, 0, []⟩

/-- One step of the document stream: a corruption point raises, which the
`except` clause of `_parse_and_filter_report` turns into `None`,
discarding everything accumulated so far. -/
def parseStep (targets_p targets_c : List String)
    (acc : Option ParseResult) (it : JItem) : Option ParseResult :=
  match acc, it with
  | none, _ => none
  | some _, JItem.corrupt => none
  | some r, JItem.pkg p => some (processPackage targets_p targets_c r p)

/-- `_parse_and_filter_report`: stream the document, returning `none`
(Python `None`) when the stream raises anywhere. -/
def parse_and_filter_report (targets_p targets_c : List String)
    (f : JFile) : Option ParseResult :=
  f.foldl (parseStep targets_p targets_c) (some emptyResult)

/-- The Pydantic model of `src/shared_utils/schema_utils.py`, with the
defaults `error=None`, `line_coverage=0.0`, `branch_coverage=0.0`,
`worst_classes=[]`. -/
structure CoverageSummaryResponse where
  success : Bool
  error : Option String := none
  line_coverage : ℚ := 0
  branch_coverage : ℚ := 0
  worst_classes : List String := []
deriving DecidableEq

/-- Pairwise summation and concatenation of two per-file parse results,
as performed by the `for report_path in report_files` accumulation loop of
`read_coverage_report`. -/
def mergeResults (a b : ParseResult) : ParseResult :=
  { lines_missed := a.lines_missed + b.lines_missed
    lines_covered := a.lines_covered + b.lines_covered
    branches_missed := a.branches_missed + b.branches_missed
    branches_covered := a.branches_covered + b.branches_covered
    class_data := a.class_data ++ b.class_data }

/-- One step of the aggregation loop: `if res:` merge, else skip the
failed file. -/
def aggStep (acc : ParseResult) (o : Option ParseResult) : ParseResult :=
  match o with
  | some r => mergeResults acc r
  | none => acc

/-- Fold of the aggregation loop: failed files (`None`) are skipped. -/
def aggregateResults (rs : List (Option ParseResult)) : ParseResult :=
  rs.foldl aggStep emptyResult

/-- The ordering used by `all_class_data.sort(key=lambda x: x[1])`. -/
def recordLe (a b : String × ℚ) : Prop := a.2 ≤ b.2

instance : DecidableRel recordLe := fun a b =>
  inferInstanceAs (Decidable (a.2 ≤ b.2))

instance : IsTotal (String × ℚ) recordLe := ⟨fun a b => le_total a.2 b.2⟩

instance : IsTrans (String × ℚ) recordLe := ⟨fun _ _ _ h1 h2 => le_trans h1 h2⟩

/-- Stable ascending sort of the merged class records by coverage ratio,
Python `list.sort` with a key: insertion from the right places an
earlier record before later records with an equal ratio, which is
exactly the stable ascending order `list.sort` produces. -/
def sortClassData (l : List (String × ℚ)) : List (String × ℚ) :=
  l.insertionSort recordLe

/-- The tail of `read_coverage_report`: rank and truncate the merged
class list, compute the overall ratios, and build the success response. -/
def finalize (r : ParseResult) : CoverageSummaryResponse :=
  let top_worst := (sortClassData r.class_data).take 20
  { success := true
    error := none
    line_coverage :=
      if r.lines_missed + r.lines_covered > 0 then
        (r.lines_covered : ℚ) /
          ((r.lines_missed : ℚ) + (r.lines_covered : ℚ))
      else 0
    branch_coverage :=
      if r.branches_missed + r.branches_covered > 0 then
        (r.branches_covered : ℚ) /
          ((r.branches_missed : ℚ) + (r.branches_covered : ℚ))
      else 0
    worst_classes := top_worst.map Prod.fst }

/-- Parse then aggregate a list of already-looked-up report documents. -/
def aggregateFiles (targets_p targets_c : List String)
    (files : List JFile) : CoverageSummaryResponse :=
  finalize (aggregateResults
    (files.map (parse_and_filter_report targets_p targets_c)))

/-- The filesystem visible to `read_coverage_report`: the report files
under the project tree in directory-walk order, and the content of
`<root>/TESTING_STANDARDS.md` when that file exists. -/
structure FileSystem where
  files : List (String × JFile)
  standardsDoc : Option String

/-- `Path.exists` on a candidate report path. -/
def fileExists (fs : FileSystem) (p : String) : Bool :=
  fs.files.any (fun e => e.1 == p)

/-- Open a path for parsing; a missing file makes `etree.iterparse`
raise, which `_parse_and_filter_report` turns into `None`. -/
def lookupFile (fs : FileSystem) (p : String) : Option JFile :=
  fs.files.lookup p

/-- `pathlib`'s `root / s`: an absolute right operand replaces the
root. -/
def joinPath (root s : String) : String :=
  if strStartsWith s "/" then s else root ++ "/" ++ s

/-- Python's `\s` character class (`re` default, ASCII input). -/
def pySpace (c : Char) : Bool :=
  c == ' ' || c == '\t' || c == '\n' || c == '\r' || c == '\x0b' || c == '\x0c'

/-- Case-insensitive removal of the literal `pat` (given lowercase) from
the front of `s`, returning the remainder. -/
def dropCI (pat s : List Char) : Option (List Char) :=
  match pat, s with
  | [], rest => some rest
  | _ :: _, [] => none
  | p :: ps, c :: cs => if c.toLower == p then dropCI ps cs else none

/-- The `\s*([^\s\n]+)` tail of the directive pattern: skip whitespace,
then capture a maximal non-empty run of non-whitespace characters. -/
def captureAfter (s : List Char) : Option String :=
  let rest := s.dropWhile pySpace
  let tok := rest.takeWhile (fun c => !pySpace c)
  if tok.isEmpty then none else some (String.mk tok)

/-- Attempt of the code's directive regex
`(?:Report Path|Jacoco Report):\s*([^\s\n]+)` (with `re.IGNORECASE`)
anchored at the start of `s`. -/
def tryDirectiveAt (s : List Char) : Option String :=
  match dropCI "report path:".data s with
  | some rest => captureAfter rest
  | none =>
    match dropCI "jacoco report:".data s with
    | some rest => captureAfter rest
    | none => none

/-- `re.search` of the code's directive pattern: leftmost match wins. -/
def findDirective : List Char → Option String
  | [] => none
  | c :: rest =>
    match tryDirectiveAt (c :: rest) with
    | some tok => some tok
    | none => findDirective rest

/-- Tier 1 of discovery: a `TESTING_STANDARDS.md` directive whose
resolved path exists (`match.group(1).strip()` is the identity here since
the captured token contains no whitespace). -/
def tier1 (fs : FileSystem) (root : String) : List String :=
  match fs.standardsDoc with
  | none => []
  | some content =>
    match findDirective content.data with
    | none => []
    | some tok =>
      let cp := joinPath root tok
      if fileExists fs cp then [cp] else []

/-- The single conventional candidate probed per named module. -/
def moduleReportPath (root m : String) : String :=
  root ++ "/" ++ m ++ "/build/reports/jacoco/test/jacocoTestReport.xml"

/-- Tier 2 of discovery: the loop over `targets_m` appending each
module's conventional report when it exists. -/
def moduleReports (fs : FileSystem) (root : String)
    (targets_m : List String) : List String :=
  targets_m.filterMap (fun m =>
    let p := moduleReportPath root m
    if fileExists fs p then some p else none)

/-- The root-level standard report path probed first in tier 3. -/
def stdRootPath (root : String) : String :=
  root ++ "/build/reports/jacoco/test/jacocoTestReport.xml"

/-- The root-level aggregate report path probed second in tier 3. -/
def aggRootPath (root : String) : String :=
  root ++ "/build/reports/jacoco/root/jacocoRootReport.xml"

/-- Tier 4: `root.glob("**/jacocoTestReport.xml")`, every file under the
root whose final component is the fixed report name, in directory-walk
order. -/
def globReports (fs : FileSystem) (root : String) : List String :=
  (fs.files.map Prod.fst).filter (fun p =>
    strStartsWith p (root ++ "/") && strEndsWith p "/jacocoTestReport.xml")

/-- The report-discovery portion of `read_coverage_report`
(lines 149-187 of the source). -/
def discoverReports (fs : FileSystem) (root : String)
    (targets_m : List String) : List String :=
  let t1 := tier1 fs root
  if !t1.isEmpty then t1
  else
    let t2 := moduleReports fs root targets_m
    if !t2.isEmpty then t2
    else if fileExists fs (stdRootPath root) then [stdRootPath root]
    else if fileExists fs (aggRootPath root) then [aggRootPath root]
    else globReports fs root

/-- `[t.strip() for t in s.split(",") if t.strip()] if s else []`. -/
def splitOnComma : List Char → List (List Char)
  | [] => [[]]
  | c :: rest =>
    if c == ',' then [] :: splitOnComma rest
    else
      match splitOnComma rest with
      | [] => [[c]]
      | g :: gs => (c :: g) :: gs

/-- Python `str.strip()`. -/
def pyStrip (s : String) : String :=
  String.mk (((s.data.dropWhile pySpace).reverse.dropWhile pySpace).reverse)

/-- `[t.strip() for t in s.split(",") if t.strip()] if s else []`. -/
def splitTargets (s : Option String) : List String :=
  match s with
  | none => []
  | some str =>
    if str == "" then []
    else (((splitOnComma str.data).map (fun g => pyStrip (String.mk g))).filter
      (fun t => t ≠ ""))

/-- Parse the report document found at a discovered path. -/
def parseAtPath (fs : FileSystem) (targets_p targets_c : List String)
    (p : String) : Option ParseResult :=
  match lookupFile fs p with
  | some f => parse_and_filter_report targets_p targets_c f
  | none => none

/-- The discovered file list of one call. -/
def pipelineFiles (fs : FileSystem) (root : String)
    (target_modules : Option String) : List String :=
  discoverReports fs root (splitTargets target_modules)

/-- The merged parse result over the discovered files. -/
def pipelineResult (fs : FileSystem) (root : String)
    (target_modules target_packages target_classes : Option String) :
    ParseResult :=
  aggregateResults ((pipelineFiles fs root target_modules).map
    (parseAtPath fs (splitTargets target_packages)
      (splitTargets target_classes)))

/-- `read_coverage_report`: discovery, then parse-and-merge, then the
final response; the empty discovery result is the only failure path that
the body itself produces.  The `project_root` argument is taken as the
resolved root (the code's cwd-prepending for relative paths is
environment state outside this model). -/
def read_coverage_report (fs : FileSystem) (project_root : String)
    (target_modules target_packages target_classes : Option String) :
    CoverageSummaryResponse :=
  if (pipelineFiles fs project_root target_modules).isEmpty then
    { success := false
      error := some ("No reports found in " ++ project_root) }
  else
    finalize (pipelineResult fs project_root target_modules
      target_packages target_classes)

/-! Reference definitions used to state the claims: per-class counter
sums, the list of classes surviving the scope filter, and a key-ordering
relation on class records. -/

/-- Sum of the `missed` attributes of a class's counters of one type. -/
def counterMissedSum (ty : String) (c : JClass) : Nat :=
  ((c.counters.filter (fun k => k.ctype == ty)).map (fun k => k.missed)).sum

/-- Sum of the `covered` attributes of a class's counters of one type. -/
def counterCoveredSum (ty : String) (c : JClass) : Nat :=
  ((c.counters.filter (fun k => k.ctype == ty)).map (fun k => k.covered)).sum

/-- The classes of one package that survive the scope filter. -/
def includedClasses (targets_p targets_c : List String)
    (p : JPackage) : List JClass :=
  p.classes.filter (fun c =>
    classDecision targets_p targets_c
      (normalizeName p.name) (normalizeName c.name))

/-- The package elements of a document, corruption points dropped. -/
def packagesOf (f : JFile) : List JPackage :=
  f.filterMap (fun it =>
    match it with
    | JItem.pkg p => some p
    | JItem.corrupt => none)

/-- All classes of a document that survive the scope filter. -/
def includedOfFile (targets_p targets_c : List String)
    (f : JFile) : List JClass :=
  ((packagesOf f).map (includedClasses targets_p targets_c)).flatten

/-- A numeric field of an optional per-file result, `0` for a failed
file. -/
def optField (g : ParseResult → Nat) (o : Option ParseResult) : Nat :=
  match o with
  | some r => g r
  | none => 0

/-- The class records of an optional per-file result. -/
def optData (o : Option ParseResult) : List (String × ℚ) :=
  match o with
  | some r => r.class_data
  | none => []

/-- The concatenated class records contributed by a list of files. -/
def combinedClassData (targets_p targets_c : List String)
    (files : List JFile) : List (String × ℚ) :=
  ((files.map (parse_and_filter_report targets_p targets_c)).map
    optData).flatten

/-- Contribution of the file at a discovered path to the aggregate
line-missed total, expressed over the filter-surviving classes. -/
def specLineMissedAt (fs : FileSystem)
    (targets_p targets_c : List String) (p : String) : Nat :=
  match lookupFile fs p with
  | none => 0
  | some f =>
    if JItem.corrupt ∈ f then 0
    else ((includedOfFile targets_p targets_c f).map
      (counterMissedSum "LINE")).sum

/-- Contribution of the file at a discovered path to the aggregate
line-covered total. -/
def specLineCoveredAt (fs : FileSystem)
    (targets_p targets_c : List String) (p : String) : Nat :=
  match lookupFile fs p with
  | none => 0
  | some f =>
    if JItem.corrupt ∈ f then 0
    else ((includedOfFile targets_p targets_c f).map
      (counterCoveredSum "LINE")).sum

/-- Contribution of the file at a discovered path to the aggregate
branch-missed total. -/
def specBranchMissedAt (fs : FileSystem)
    (targets_p targets_c : List String) (p : String) : Nat :=
  match lookupFile fs p with
  | none => 0
  | some f =>
    if JItem.corrupt ∈ f then 0
    else ((includedOfFile targets_p targets_c f).map
      (counterMissedSum "BRANCH")).sum

/-- Contribution of the file at a discovered path to the aggregate
branch-covered total. -/
def specBranchCoveredAt (fs : FileSystem)
    (targets_p targets_c : List String) (p : String) : Nat :=
  match lookupFile fs p with
  | none => 0
  | some f =>
    if JItem.corrupt ∈ f then 0
    else ((includedOfFile targets_p targets_c f).map
      (counterCoveredSum "BRANCH")).sum

/-- Strict ordering of class records by ratio, or equality; the
antisymmetric order used to compare two stable sorts. -/
def keyLtEq (a b : String × ℚ) : Prop := a.2 < b.2 ∨ a = b

instance : IsAntisymm (String × ℚ) keyLtEq := by
  constructor
  intro a b hab hba
  rcases hab with h | h
  · rcases hba with h2 | h2
    · exact absurd (lt_trans h h2) (lt_irrefl _)
    · exact h2.symm
  · exact h

/-- Modelled from the spec: the directive regex the specification states,
`(?:Report Path|Jacoco.*Report):\s*([^\s\n]+)` — the code's regex has the
literal alternative `Jacoco Report` instead of `Jacoco.*Report`.  The
`.*` is greedy over non-newline characters; this matcher tries every
split, longest first. -/
def dotStarSplits : List Char → List (List Char)
  | [] => [[]]
  | c :: cs =>
    if c == '\n' then [c :: cs]
    else dotStarSplits cs ++ [c :: cs]

/-- First success of `g` over a list of candidates. -/
def firstSome {α β : Type} (g : α → Option β) : List α → Option β
  | [] => none
  | a :: as =>
    match g a with
    | some b => some b
    | none => firstSome g as

/-- Modelled from the spec: one anchored attempt of the spec's directive
pattern. -/
def specTryDirectiveAt (s : List Char) : Option String :=
  match dropCI "report path:".data s with
  | some rest => captureAfter rest
  | none =>
    match dropCI "jacoco".data s with
    | some rest =>
      firstSome (fun t =>
        match dropCI "report:".data t with
        | some r2 => captureAfter r2
        | none => none) (dotStarSplits rest)
    | none => none

/-- Modelled from the spec: leftmost search of the spec's directive
pattern over the standards-document content. -/
def specFindDirective : List Char → Option String
  | [] => none
  | c :: rest =>
    match specTryDirectiveAt (c :: rest) with
    | some tok => some tok
    | none => specFindDirective rest

/-- The class records the parse appends for one class element: the ratio
of the last LINE counter seen, recorded only when the class has line
units. -/
def recordsOfClass (c : JClass) : List (String × ℚ) :=
  if (classAccOf c).c_l_m + (classAccOf c).c_l_c > 0 then
    [(normalizeName c.name,
      ((classAccOf c).c_l_c : ℚ) /
        (((classAccOf c).c_l_m : ℚ) + ((classAccOf c).c_l_c : ℚ)))]
  else []

/-- The per-package contribution list used to restate a clean parse. -/
def pkgRecords (targets_p targets_c : List String) (p : JPackage) :
    List (String × ℚ) :=
  ((includedClasses targets_p targets_c p).map recordsOfClass).flatten

/-! Concrete fixtures used by witnesses and counterexamples. -/

/-- A project whose only discoverable report is corrupt. -/
def fsAllCorrupt : FileSystem :=
  ⟨[("r/build/reports/jacoco/test/jacocoTestReport.xml",
      [JItem.corrupt])], none⟩

/-- A project with one report containing one class `com.x.Foo` with LINE
`missed=2, covered=8`. -/
def fsOneClass : FileSystem :=
  ⟨[("r/build/reports/jacoco/test/jacocoTestReport.xml",
      [JItem.pkg ⟨"com/x", [⟨"com/x/Foo", [⟨"LINE", 2, 8⟩]⟩]⟩])], none⟩

/-- An empty project tree. -/
def fsEmpty : FileSystem := ⟨[], none⟩

/-- A report whose package `com/x` holds only the class `com/x/Foo`. -/
def fileOnlyFoo : JFile :=
  [JItem.pkg ⟨"com/x", [⟨"com/x/Foo", [⟨"LINE", 1, 1⟩]⟩]⟩]

/-- A report holding only class `com/x/A` with LINE `missed=1,covered=1`. -/
def fileA : JFile :=
  [JItem.pkg ⟨"com/x", [⟨"com/x/A", [⟨"LINE", 1, 1⟩]⟩]⟩]

/-- A report holding only class `com/x/B` with LINE `missed=1,covered=1`. -/
def fileB : JFile :=
  [JItem.pkg ⟨"com/x", [⟨"com/x/B", [⟨"LINE", 1, 1⟩]⟩]⟩]

/-- A report holding only class `com/x/D` with LINE `missed=1,covered=3`,
whose ratio 3/4 differs from `fileA`'s 1/2. -/
def fileD : JFile :=
  [JItem.pkg ⟨"com/x", [⟨"com/x/D", [⟨"LINE", 1, 3⟩]⟩]⟩]

/-- A report that is corrupt from its first event. -/
def fileCorrupt : JFile := [JItem.corrupt]

/-- A report that yields a class and its counters, then raises mid
stream. -/
def fileMidCorrupt : JFile :=
  [JItem.pkg ⟨"com/x", [⟨"com/x/C", [⟨"LINE", 1, 3⟩]⟩]⟩, JItem.corrupt]

/-- A class in a `dto` package, matching a built-in exclusion pattern. -/
def dtoClass : JClass := ⟨"com/x/dto/Foo", [⟨"LINE", 1, 2⟩]⟩

/-- The parse result of `fileA`. -/
def resA : ParseResult :=
  ⟨1, 1, 0, 0, [("com.x.A", ((1 : Nat) : ℚ) / (((1 : Nat) : ℚ) + ((1 : Nat) : ℚ)))]⟩

/-- The parse result of `fileB`. -/
def resB : ParseResult :=
  ⟨1, 1, 0, 0, [("com.x.B", ((1 : Nat) : ℚ) / (((1 : Nat) : ℚ) + ((1 : Nat) : ℚ)))]⟩

/-- A standards document whose directive matches the spec's regex
`(?:Report Path|Jacoco.*Report)` but not the code's
`(?:Report Path|Jacoco Report)`. -/
def contentSpecOnly : String := "Jacoco XML Report: r.xml"

/-- A project carrying `contentSpecOnly` as its standards document, the
file the directive names, and a root-level standard report. -/
def fsSpecDirective : FileSystem :=
  ⟨[("root/r.xml", []),
    ("root/build/reports/jacoco/test/jacocoTestReport.xml", [])],
   some contentSpecOnly⟩

/-- A project where module `mod-a` has its conventional report and a
root-level aggregate standard report also exists. -/
def fsModuleTier : FileSystem :=
  ⟨[("root/mod-a/build/reports/jacoco/test/jacocoTestReport.xml", []),
    ("root/build/reports/jacoco/test/jacocoTestReport.xml", [])], none⟩

/-! Helper lemmas shared by the claim proofs. -/

lemma mergeResults_empty_left (r : ParseResult) :
    mergeResults emptyResult r = r := by
  cases r
  simp [mergeResults, emptyResult]

lemma mergeResults_empty_right (r : ParseResult) :
    mergeResults r emptyResult = r := by
  cases r
  simp [mergeResults, emptyResult]

lemma mergeResults_assoc (a b c : ParseResult) :
    mergeResults (mergeResults a b) c = mergeResults a (mergeResults b c) := by
  simp [mergeResults, Nat.add_assoc, List.append_assoc]

lemma aggStep_empty (acc : ParseResult) (o : Option ParseResult) :
    aggStep acc o = mergeResults acc (aggStep emptyResult o) := by
  cases o with
  | none => simp [aggStep, mergeResults_empty_right]
  | some r => simp [aggStep, mergeResults_empty_left]

lemma foldl_aggStep (rs : List (Option ParseResult)) :
    ∀ acc : ParseResult, rs.foldl aggStep acc = mergeResults acc (aggregateResults rs) := by
  induction rs with
  | nil => intro acc; simp [aggregateResults, mergeResults_empty_right]
  | cons o rest ih =>
    intro acc
    show (rest.foldl aggStep (aggStep acc o)) = _
    rw [ih (aggStep acc o), aggStep_empty acc o, mergeResults_assoc]
    have : aggregateResults (o :: rest) =
        mergeResults (aggStep emptyResult o) (aggregateResults rest) := by
      show rest.foldl aggStep (aggStep emptyResult o) = _
      rw [ih (aggStep emptyResult o)]
    rw [this]

lemma aggregateResults_cons (o : Option ParseResult)
    (rs : List (Option ParseResult)) :
    aggregateResults (o :: rs) =
      mergeResults (aggStep emptyResult o) (aggregateResults rs) := by
  show rs.foldl aggStep (aggStep emptyResult o) = _
  rw [foldl_aggStep]

lemma aggregateResults_eq (rs : List (Option ParseResult)) :
    aggregateResults rs =
      { lines_missed := (rs.map (optField ParseResult.lines_missed)).sum
        lines_covered := (rs.map (optField ParseResult.lines_covered)).sum
        branches_missed := (rs.map (optField ParseResult.branches_missed)).sum
        branches_covered := (rs.map (optField ParseResult.branches_covered)).sum
        class_data := (rs.map optData).flatten } := by
  induction rs with
  | nil => rfl
  | cons o rest ih =>
    rw [aggregateResults_cons, ih]
    cases o with
    | none =>
      rw [show aggStep emptyResult none = emptyResult from rfl,
        mergeResults_empty_left]
      simp [optField, optData]
    | some r =>
      rw [show aggStep emptyResult (some r) = mergeResults emptyResult r from rfl,
        mergeResults_empty_left]
      simp [mergeResults, optField, optData]

lemma foldl_parseStep_none (targets_p targets_c : List String)
    (items : List JItem) :
    items.foldl (parseStep targets_p targets_c) none = none := by
  induction items with
  | nil => rfl
  | cons it rest ih => cases it <;> exact ih

lemma foldl_parseStep_corrupt (targets_p targets_c : List String)
    (items : List JItem) :
    ∀ acc : ParseResult, JItem.corrupt ∈ items →
      items.foldl (parseStep targets_p targets_c) (some acc) = none := by
  induction items with
  | nil => intro _ h; cases h
  | cons it rest ih =>
    intro acc h
    cases it with
    | corrupt =>
      show rest.foldl (parseStep targets_p targets_c) none = none
      exact foldl_parseStep_none _ _ rest
    | pkg p =>
      have hmem : JItem.corrupt ∈ rest := by
        cases h with
        | tail _ h2 => exact h2
      exact ih _ hmem

lemma parse_eq_none_of_corrupt (targets_p targets_c : List String)
    (f : JFile) (h : JItem.corrupt ∈ f) :
    parse_and_filter_report targets_p targets_c f = none :=
  foldl_parseStep_corrupt targets_p targets_c f emptyResult h

lemma foldl_parseStep_clean (targets_p targets_c : List String)
    (items : List JItem) :
    ∀ acc : ParseResult, JItem.corrupt ∉ items →
      items.foldl (parseStep targets_p targets_c) (some acc) =
        some ((packagesOf items).foldl (processPackage targets_p targets_c) acc) := by
  induction items with
  | nil => intro acc _; rfl
  | cons it rest ih =>
    intro acc h
    cases it with
    | corrupt => exact absurd (List.mem_cons_self _ _) h
    | pkg p =>
      have hrest : JItem.corrupt ∉ rest := fun hm => h (List.mem_cons_of_mem _ hm)
      show rest.foldl (parseStep targets_p targets_c)
        (some (processPackage targets_p targets_c acc p)) = _
      rw [ih _ hrest]
      rfl

lemma parse_eq_some_of_clean (targets_p targets_c : List String)
    (f : JFile) (h : JItem.corrupt ∉ f) :
    parse_and_filter_report targets_p targets_c f =
      some ((packagesOf f).foldl (processPackage targets_p targets_c)
        emptyResult) :=
  foldl_parseStep_clean targets_p targets_c f emptyResult h

lemma counterFold_lm (ks : List JCounter) :
    ∀ a : ClassAcc, (ks.foldl processCounter a).lm =
      a.lm + ((ks.filter (fun k => k.ctype == "LINE")).map
        (fun k => k.missed)).sum := by
  induction ks with
  | nil => intro a; simp
  | cons k rest ih =>
    intro a
    show (rest.foldl processCounter (processCounter a k)).lm = _
    rw [ih]
    cases h : (k.ctype == "LINE") with
    | true => simp [processCounter, h, Nat.add_assoc]
    | false =>
      cases h2 : (k.ctype == "BRANCH") <;> simp [processCounter, h, h2]

lemma counterFold_lc (ks : List JCounter) :
    ∀ a : ClassAcc, (ks.foldl processCounter a).lc =
      a.lc + ((ks.filter (fun k => k.ctype == "LINE")).map
        (fun k => k.covered)).sum := by
  induction ks with
  | nil => intro a; simp
  | cons k rest ih =>
    intro a
    show (rest.foldl processCounter (processCounter a k)).lc = _
    rw [ih]
    cases h : (k.ctype == "LINE") with
    | true => simp [processCounter, h, Nat.add_assoc]
    | false =>
      cases h2 : (k.ctype == "BRANCH") <;> simp [processCounter, h, h2]

lemma counterFold_bm (ks : List JCounter) :
    ∀ a : ClassAcc, (ks.foldl processCounter a).bm =
      a.bm + ((ks.filter (fun k => k.ctype == "BRANCH")).map
        (fun k => k.missed)).sum := by
  induction ks with
  | nil => intro a; simp
  | cons k rest ih =>
    intro a
    show (rest.foldl processCounter (processCounter a k)).bm = _
    rw [ih]
    cases h : (k.ctype == "LINE") with
    | true =>
      have h2 : (k.ctype == "BRANCH") = false := by
        cases hb : (k.ctype == "BRANCH")
        · rfl
        · exact absurd (eq_of_beq hb ▸ eq_of_beq h) (by decide)
      simp [processCounter, h, h2]
    | false =>
      cases h2 : (k.ctype == "BRANCH") <;>
        simp [processCounter, h, h2, Nat.add_assoc]

lemma counterFold_bc (ks : List JCounter) :
    ∀ a : ClassAcc, (ks.foldl processCounter a).bc =
      a.bc + ((ks.filter (fun k => k.ctype == "BRANCH")).map
        (fun k => k.covered)).sum := by
  induction ks with
  | nil => intro a; simp
  | cons k rest ih =>
    intro a
    show (rest.foldl processCounter (processCounter a k)).bc = _
    rw [ih]
    cases h : (k.ctype == "LINE") with
    | true =>
      have h2 : (k.ctype == "BRANCH") = false := by
        cases hb : (k.ctype == "BRANCH")
        · rfl
        · exact absurd (eq_of_beq hb ▸ eq_of_beq h) (by decide)
      simp [processCounter, h, h2]
    | false =>
      cases h2 : (k.ctype == "BRANCH") <;>
        simp [processCounter, h, h2, Nat.add_assoc]

lemma classAccOf_lm (c : JClass) :
    (classAccOf c).lm = counterMissedSum "LINE" c := by
  simpa [classAccOf, counterMissedSum] using counterFold_lm c.counters ⟨0, 0, 0, 0, 0, 0⟩

lemma classAccOf_lc (c : JClass) :
    (classAccOf c).lc = counterCoveredSum "LINE" c := by
  simpa [classAccOf, counterCoveredSum] using counterFold_lc c.counters ⟨0, 0, 0, 0, 0, 0⟩

lemma classAccOf_bm (c : JClass) :
    (classAccOf c).bm = counterMissedSum "BRANCH" c := by
  simpa [classAccOf, counterMissedSum] using counterFold_bm c.counters ⟨0, 0, 0, 0, 0, 0⟩

lemma classAccOf_bc (c : JClass) :
    (classAccOf c).bc = counterCoveredSum "BRANCH" c := by
  simpa [classAccOf, counterCoveredSum] using counterFold_bc c.counters ⟨0, 0, 0, 0, 0, 0⟩

lemma processClass_eq (targets_c : List String) (r : ParseResult)
    (skip : Bool) (c : JClass) :
    processClass targets_c r skip c =
      if classKeep targets_c skip (normalizeName c.name) then
        { lines_missed := r.lines_missed + counterMissedSum "LINE" c
          lines_covered := r.lines_covered + counterCoveredSum "LINE" c
          branches_missed := r.branches_missed + counterMissedSum "BRANCH" c
          branches_covered := r.branches_covered + counterCoveredSum "BRANCH" c
          class_data := r.class_data ++ recordsOfClass c }
      else r := by
  cases hs : skip with
  | true => simp [processClass, classKeep]
  | false =>
    cases he : matchesExclusion (normalizeName c.name) with
    | true => simp [processClass, classKeep, he]
    | false =>
      cases hm : classTargetMatch (normalizeName c.name) targets_c with
      | false => simp [processClass, classKeep, he, hm]
      | true =>
        simp [processClass, classKeep, he, hm, recordsOfClass,
          classAccOf_lm, classAccOf_lc, classAccOf_bm, classAccOf_bc]

lemma classFold_eq (targets_c : List String) (skip : Bool)
    (cs : List JClass) :
    ∀ r : ParseResult,
      cs.foldl (fun r c => processClass targets_c r skip c) r =
        { lines_missed := r.lines_missed +
            ((cs.filter (fun c => classKeep targets_c skip (normalizeName c.name))).map
              (counterMissedSum "LINE")).sum
          lines_covered := r.lines_covered +
            ((cs.filter (fun c => classKeep targets_c skip (normalizeName c.name))).map
              (counterCoveredSum "LINE")).sum
          branches_missed := r.branches_missed +
            ((cs.filter (fun c => classKeep targets_c skip (normalizeName c.name))).map
              (counterMissedSum "BRANCH")).sum
          branches_covered := r.branches_covered +
            ((cs.filter (fun c => classKeep targets_c skip (normalizeName c.name))).map
              (counterCoveredSum "BRANCH")).sum
          class_data := r.class_data ++
            ((cs.filter (fun c => classKeep targets_c skip (normalizeName c.name))).map
              recordsOfClass).flatten } := by
  induction cs with
  | nil => intro r; cases r; simp
  | cons c rest ih =>
    intro r
    show (rest.foldl (fun r c => processClass targets_c r skip c)
      (processClass targets_c r skip c)) = _
    rw [ih, processClass_eq]
    cases hk : classKeep targets_c skip (normalizeName c.name) with
    | true => simp [hk, Nat.add_assoc, List.append_assoc]
    | false => simp [hk]

lemma processPackage_eq (targets_p targets_c : List String)
    (r : ParseResult) (p : JPackage) :
    processPackage targets_p targets_c r p =
      { lines_missed := r.lines_missed +
          ((includedClasses targets_p targets_c p).map
            (counterMissedSum "LINE")).sum
        lines_covered := r.lines_covered +
          ((includedClasses targets_p targets_c p).map
            (counterCoveredSum "LINE")).sum
        branches_missed := r.branches_missed +
          ((includedClasses targets_p targets_c p).map
            (counterMissedSum "BRANCH")).sum
        branches_covered := r.branches_covered +
          ((includedClasses targets_p targets_c p).map
            (counterCoveredSum "BRANCH")).sum
        class_data := r.class_data ++
          ((includedClasses targets_p targets_c p).map
            recordsOfClass).flatten } := by
  have h := classFold_eq targets_c
    (packageSkipped (normalizeName p.name) targets_p) p.classes r
  simpa [processPackage, includedClasses, classDecision, classKeep] using h

lemma pkgFold_eq (targets_p targets_c : List String)
    (ps : List JPackage) :
    ∀ r : ParseResult,
      ps.foldl (processPackage targets_p targets_c) r =
        { lines_missed := r.lines_missed + (ps.map (fun p =>
            ((includedClasses targets_p targets_c p).map
              (counterMissedSum "LINE")).sum)).sum
          lines_covered := r.lines_covered + (ps.map (fun p =>
            ((includedClasses targets_p targets_c p).map
              (counterCoveredSum "LINE")).sum)).sum
          branches_missed := r.branches_missed + (ps.map (fun p =>
            ((includedClasses targets_p targets_c p).map
              (counterMissedSum "BRANCH")).sum)).sum
          branches_covered := r.branches_covered + (ps.map (fun p =>
            ((includedClasses targets_p targets_c p).map
              (counterCoveredSum "BRANCH")).sum)).sum
          class_data := r.class_data ++
            (ps.map (pkgRecords targets_p targets_c)).flatten } := by
  induction ps with
  | nil => intro r; cases r; simp
  | cons p rest ih =>
    intro r
    show (rest.foldl (processPackage targets_p targets_c)
      (processPackage targets_p targets_c r p)) = _
    rw [ih, processPackage_eq]
    simp [pkgRecords, Nat.add_assoc, List.append_assoc]

lemma sum_over_included (targets_p targets_c : List String) (f : JFile)
    (g : JClass → Nat) :
    ((includedOfFile targets_p targets_c f).map g).sum =
      ((packagesOf f).map (fun p =>
        ((includedClasses targets_p targets_c p).map g).sum)).sum := by
  unfold includedOfFile
  rw [List.map_flatten, List.sum_flatten, List.map_map, List.map_map]
  rfl

lemma parse_clean_eq (targets_p targets_c : List String) (f : JFile)
    (h : JItem.corrupt ∉ f) :
    parse_and_filter_report targets_p targets_c f = some
      { lines_missed := ((includedOfFile targets_p targets_c f).map
          (counterMissedSum "LINE")).sum
        lines_covered := ((includedOfFile targets_p targets_c f).map
          (counterCoveredSum "LINE")).sum
        branches_missed := ((includedOfFile targets_p targets_c f).map
          (counterMissedSum "BRANCH")).sum
        branches_covered := ((includedOfFile targets_p targets_c f).map
          (counterCoveredSum "BRANCH")).sum
        class_data := ((packagesOf f).map
          (pkgRecords targets_p targets_c)).flatten } := by
  rw [parse_eq_some_of_clean targets_p targets_c f h,
    pkgFold_eq targets_p targets_c (packagesOf f) emptyResult]
  simp [emptyResult, sum_over_included]

lemma optField_parseAtPath_lm (fs : FileSystem)
    (targets_p targets_c : List String) (p : String) :
    optField ParseResult.lines_missed
        (parseAtPath fs targets_p targets_c p) =
      specLineMissedAt fs targets_p targets_c p := by
  unfold parseAtPath specLineMissedAt
  cases h : lookupFile fs p with
  | none => rfl
  | some f =>
    by_cases hc : JItem.corrupt ∈ f
    · simp [optField, hc, parse_eq_none_of_corrupt targets_p targets_c f hc]
    · simp [optField, hc, parse_clean_eq targets_p targets_c f hc]

lemma optField_parseAtPath_lc (fs : FileSystem)
    (targets_p targets_c : List String) (p : String) :
    optField ParseResult.lines_covered
        (parseAtPath fs targets_p targets_c p) =
      specLineCoveredAt fs targets_p targets_c p := by
  unfold parseAtPath specLineCoveredAt
  cases h : lookupFile fs p with
  | none => rfl
  | some f =>
    by_cases hc : JItem.corrupt ∈ f
    · simp [optField, hc, parse_eq_none_of_corrupt targets_p targets_c f hc]
    · simp [optField, hc, parse_clean_eq targets_p targets_c f hc]

lemma optField_parseAtPath_bm (fs : FileSystem)
    (targets_p targets_c : List String) (p : String) :
    optField ParseResult.branches_missed
        (parseAtPath fs targets_p targets_c p) =
      specBranchMissedAt fs targets_p targets_c p := by
  unfold parseAtPath specBranchMissedAt
  cases h : lookupFile fs p with
  | none => rfl
  | some f =>
    by_cases hc : JItem.corrupt ∈ f
    · simp [optField, hc, parse_eq_none_of_corrupt targets_p targets_c f hc]
    · simp [optField, hc, parse_clean_eq targets_p targets_c f hc]

lemma optField_parseAtPath_bc (fs : FileSystem)
    (targets_p targets_c : List String) (p : String) :
    optField ParseResult.branches_covered
        (parseAtPath fs targets_p targets_c p) =
      specBranchCoveredAt fs targets_p targets_c p := by
  unfold parseAtPath specBranchCoveredAt
  cases h : lookupFile fs p with
  | none => rfl
  | some f =>
    by_cases hc : JItem.corrupt ∈ f
    · simp [optField, hc, parse_eq_none_of_corrupt targets_p targets_c f hc]
    · simp [optField, hc, parse_clean_eq targets_p targets_c f hc]

lemma sortClassData_perm (l : List (String × ℚ)) :
    (sortClassData l).Perm l :=
  List.perm_insertionSort recordLe l

lemma sortClassData_sorted (l : List (String × ℚ)) :
    List.Sorted recordLe (sortClassData l) :=
  List.sorted_insertionSort recordLe l

lemma sorted_keyLtEq_of_nodup {l : List (String × ℚ)}
    (hs : List.Sorted recordLe l) (hn : (l.map Prod.snd).Nodup) :
    List.Sorted keyLtEq l := by
  have hne : List.Pairwise (fun a b : String × ℚ => a.2 ≠ b.2) l :=
    List.pairwise_map.mp hn
  exact (List.Pairwise.and hs hne).imp
    (fun hab => Or.inl (lt_of_le_of_ne hab.1 hab.2))

lemma sortClassData_eq_of_perm (d1 d2 : List (String × ℚ))
    (hp : d1.Perm d2) (hn : (d1.map Prod.snd).Nodup) :
    sortClassData d1 = sortClassData d2 := by
  have hperm : (sortClassData d1).Perm (sortClassData d2) :=
    ((sortClassData_perm d1).trans hp).trans (sortClassData_perm d2).symm
  have hn1 : ((sortClassData d1).map Prod.snd).Nodup :=
    (((sortClassData_perm d1).map Prod.snd).nodup_iff).mpr hn
  have hn2 : ((sortClassData d2).map Prod.snd).Nodup :=
    (((sortClassData_perm d2).map Prod.snd).nodup_iff).mpr
      (((hp.map Prod.snd).nodup_iff).mp hn)
  exact List.eq_of_perm_of_sorted hperm
    (sorted_keyLtEq_of_nodup (sortClassData_sorted d1) hn1)
    (sorted_keyLtEq_of_nodup (sortClassData_sorted d2) hn2)

lemma aggregateResults_all_none (rs : List (Option ParseResult))
    (h : ∀ o ∈ rs, o = none) : aggregateResults rs = emptyResult := by
  induction rs with
  | nil => rfl
  | cons o rest ih =>
    rw [aggregateResults_cons, h o (List.mem_cons_self _ _),
      ih (fun o ho => h o (List.mem_cons_of_mem _ ho))]
    exact mergeResults_empty_right _

lemma foldl_aggStep_skip_none (rs1 rs2 : List (Option ParseResult)) :
    ∀ acc : ParseResult,
      (rs1 ++ none :: rs2).foldl aggStep acc =
        (rs1 ++ rs2).foldl aggStep acc := by
  induction rs1 with
  | nil => intro acc; rfl
  | cons o rest ih => intro acc; exact ih (aggStep acc o)

/-! The claims. -/

/-- C1 (counterexample): a project whose only discovered report file
fails to parse still yields `success=true` with zero metrics, refuting
the claim that `read_coverage_report` returns `success=false` when every
discovered file parse-fails. -/
theorem c1_counterexample :
    pipelineFiles fsAllCorrupt "r" none ≠ []
      ∧ (∀ p ∈ pipelineFiles fsAllCorrupt "r" none,
          parseAtPath fsAllCorrupt [] [] p = none)
      ∧ (read_coverage_report fsAllCorrupt "r" none none none).success = true := by
  decide

/-- C1 (amended): if at least one report file is discovered and every
discovered file fails to parse, `read_coverage_report` returns the
successful summary with zero metrics — `success=true`, `error=None`,
`lineCoverage=0.0`, `branchCoverage=0.0`, empty `worstClasses` — not a
`success=false` failure. -/
theorem c1_claim (fs : FileSystem) (root : String)
    (tm tp tc : Option String)
    (h1 : pipelineFiles fs root tm ≠ [])
    (h2 : ∀ p ∈ pipelineFiles fs root tm,
      parseAtPath fs (splitTargets tp) (splitTargets tc) p = none) :
    read_coverage_report fs root tm tp tc =
      { success := true, error := none, line_coverage := 0,
        branch_coverage := 0, worst_classes := [] } := by
  have hne : (pipelineFiles fs root tm).isEmpty = false := by
    cases hl : (pipelineFiles fs root tm).isEmpty
    · rfl
    · exact absurd (List.isEmpty_iff.mp hl) h1
  have hall : ∀ o ∈ (pipelineFiles fs root tm).map
      (parseAtPath fs (splitTargets tp) (splitTargets tc)), o = none := by
    intro o ho
    rcases List.mem_map.mp ho with ⟨p, hp, rfl⟩
    exact h2 p hp
  unfold read_coverage_report
  rw [hne]
  show finalize (pipelineResult fs root tm tp tc) = _
  unfold pipelineResult
  rw [aggregateResults_all_none _ hall]
  rfl

/-- C1 (witness): the amended statement applied to the concrete project
whose only report is corrupt. -/
theorem c1_witness :
    read_coverage_report fsAllCorrupt "r" none none none =
      { success := true, error := none, line_coverage := 0,
        branch_coverage := 0, worst_classes := [] } :=
  c1_claim fsAllCorrupt "r" none none none (by decide) (by decide)

/-- C2 (counterexample): with `targetPackages=["com.x"]` and
`targetClasses=["Bar"]`, the class `com.x.Foo` starts with the package
prefix `com.x` (so the claim's either/or rule would include it) and
matches no exclusion pattern, yet the code excludes it: matching only
one of the two lists does not suffice. -/
theorem c2_counterexample :
    matchesExclusion "com.x.Foo" = false
      ∧ (["com.x"] : List String) ≠ []
      ∧ (["Bar"] : List String) ≠ []
      ∧ strStartsWith "com.x.Foo" "com.x" = true
      ∧ classDecision ["com.x"] ["Bar"] "com.x" "com.x.Foo" = false
      ∧ parse_and_filter_report ["com.x"] ["Bar"] fileOnlyFoo =
          some emptyResult := by
  decide

/-- C2 (amended): for a class matching no built-in exclusion pattern,
when both `targetPackages` and `targetClasses` are non-empty the class is
included iff BOTH its package passes the package filter (some target is
a leading piece of the package name and the package name matches no
exclusion pattern) AND the class name equals, or ends with `"." +`, some
entry of `targetClasses`; matching only one of the two lists does not
suffice. -/
theorem c2_claim (tp tc : List String) (pkg cls : String)
    (h1 : tp ≠ []) (h2 : tc ≠ []) :
    classDecision tp tc pkg cls = true ↔
      (tp.any (fun p => strStartsWith pkg p) = true
        ∧ matchesExclusion pkg = false
        ∧ matchesExclusion cls = false
        ∧ tc.any (fun t => cls == t || strEndsWith cls ("." ++ t)) = true) := by
  have e1 : tp.isEmpty = false := by
    cases tp with
    | nil => exact absurd rfl h1
    | cons a l => rfl
  have e2 : tc.isEmpty = false := by
    cases tc with
    | nil => exact absurd rfl h2
    | cons a l => rfl
  simp [classDecision, packageSkipped, classTargetMatch, e1, e2]
  aesop

/-- C2 (witness): the amended rule applied to a class matching both
lists, which is indeed included. -/
theorem c2_witness :
    classDecision ["com.x"] ["Foo"] "com.x" "com.x.Foo" = true :=
  (c2_claim ["com.x"] ["Foo"] "com.x" "com.x.Foo"
    (by decide) (by decide)).mpr (by decide)

/-- C3: a class whose name matches a built-in exclusion pattern is
excluded for every ScopeQuery — even one explicitly listing it in
`targetClasses` — and processing it leaves the running totals and class
records untouched, so it contributes neither to the counters nor to
`worstClasses`. -/
theorem c3_claim (tp tc : List String) (pkg : String)
    (r : ParseResult) (skip : Bool) (c : JClass)
    (h : matchesExclusion (normalizeName c.name) = true) :
    classDecision tp tc pkg (normalizeName c.name) = false
      ∧ processClass tc r skip c = r := by
  constructor
  · simp [classDecision, h]
  · cases skip <;> simp [processClass, h]

/-- C3 (witness): the theorem applied to a `dto` class that is listed
explicitly in `targetClasses` yet still filtered out. -/
theorem c3_witness :
    matchesExclusion (normalizeName dtoClass.name) = true
      ∧ classDecision [] ["Foo"] "com.x.dto" (normalizeName dtoClass.name) = false
      ∧ processClass ["Foo"] emptyResult false dtoClass = emptyResult := by
  refine ⟨by decide, ?_, ?_⟩
  · exact (c3_claim [] ["Foo"] "com.x.dto" emptyResult false dtoClass (by decide)).1
  · exact (c3_claim [] ["Foo"] "com.x.dto" emptyResult false dtoClass (by decide)).2

/-- C7: a malformed file in the discovered list does not abort the
aggregation when at least one other file parses: the summary equals the
one computed from the remaining files alone and has `success=true`. -/
theorem c7_claim (tp tc : List String) (bad : JFile)
    (others : List JFile)
    (h1 : parse_and_filter_report tp tc bad = none)
    (_h2 : ∃ g ∈ others, (parse_and_filter_report tp tc g).isSome = true) :
    aggregateFiles tp tc (bad :: others) = aggregateFiles tp tc others
      ∧ (aggregateFiles tp tc (bad :: others)).success = true := by
  have key : aggregateFiles tp tc (bad :: others) =
      aggregateFiles tp tc others := by
    unfold aggregateFiles aggregateResults
    rw [List.map_cons, h1]
    rfl
  exact ⟨key, by rw [key]; rfl⟩

/-- C7 (witness): the theorem applied to a corrupt file plus one valid
file. -/
theorem c7_witness :
    parse_and_filter_report [] [] fileCorrupt = none
      ∧ (parse_and_filter_report [] [] fileA).isSome = true
      ∧ (aggregateFiles [] [] [fileCorrupt, fileA]).success = true := by
  refine ⟨by decide, by decide, ?_⟩
  exact (c7_claim [] [] fileCorrupt [fileA] (by decide)
    ⟨fileA, List.mem_cons_self _ _, by decide⟩).2

/-- C9: `read_coverage_report` always returns a structured
`CoverageSummaryResponse` — the function of the model is total, mirroring
the top-level `try/except` of the source — and every failure response
carries `success=false` together with an error message, while success
responses carry no error. -/
theorem c9_claim (fs : FileSystem) (root : String)
    (tm tp tc : Option String) :
    ((read_coverage_report fs root tm tp tc).success = false →
      ∃ msg, (read_coverage_report fs root tm tp tc).error = some msg)
      ∧ ((read_coverage_report fs root tm tp tc).success = true →
        (read_coverage_report fs root tm tp tc).error = none) := by
  unfold read_coverage_report
  cases h : (pipelineFiles fs root tm).isEmpty
  · constructor
    · intro hf
      exact absurd hf (by simp [finalize])
    · intro _
      simp [finalize]
  · constructor
    · intro _
      exact ⟨"No reports found in " ++ root, by simp⟩
    · intro ht
      exact absurd ht (by simp)

/-- C9 (witness): the failure half of the theorem applied to an empty
project tree, where discovery finds nothing. -/
theorem c9_witness :
    (read_coverage_report fsEmpty "r" none none none).success = false
      ∧ ∃ msg, (read_coverage_report fsEmpty "r" none none none).error = some msg :=
  ⟨by decide, (c9_claim fsEmpty "r" none none none).1 (by decide)⟩

/-- C10: per-file parse failure is atomic: a report that raises anywhere
in its stream parses to `None`, and the aggregate over any file list
containing it equals the aggregate with the file absent — everything
accumulated for it before the error is discarded. -/
theorem c10_claim (tp tc : List String) (f : JFile)
    (l1 l2 : List JFile) (h : JItem.corrupt ∈ f) :
    parse_and_filter_report tp tc f = none
      ∧ aggregateFiles tp tc (l1 ++ f :: l2) =
          aggregateFiles tp tc (l1 ++ l2) := by
  have hn := parse_eq_none_of_corrupt tp tc f h
  refine ⟨hn, ?_⟩
  unfold aggregateFiles aggregateResults
  rw [List.map_append, List.map_cons, hn, List.map_append,
    foldl_aggStep_skip_none]

/-- C4: for every successful call, `worstClasses` is the names-only
projection of the first 20 entries of the ratio-sorted merged class
records, hence holds at most 20 entries whose underlying coverage ratios
are in non-decreasing order. -/
theorem c4_claim (fs : FileSystem) (root : String)
    (tm tp tc : Option String)
    (h : (read_coverage_report fs root tm tp tc).success = true) :
    (read_coverage_report fs root tm tp tc).worst_classes =
        ((sortClassData (pipelineResult fs root tm tp tc).class_data).take 20).map
          Prod.fst
      ∧ (read_coverage_report fs root tm tp tc).worst_classes.length ≤ 20
      ∧ List.Pairwise recordLe
          ((sortClassData (pipelineResult fs root tm tp tc).class_data).take 20) := by
  by_cases he : (pipelineFiles fs root tm).isEmpty
  · exact absurd h (by simp [read_coverage_report, he])
  · have hr : read_coverage_report fs root tm tp tc =
        finalize (pipelineResult fs root tm tp tc) := by
      simp [read_coverage_report, he]
    refine ⟨by rw [hr]; rfl, ?_, ?_⟩
    · rw [hr]
      show (((sortClassData (pipelineResult fs root tm tp tc).class_data).take 20).map
        Prod.fst).length ≤ 20
      rw [List.length_map, List.length_take]
      exact min_le_left _ _
    · exact List.Pairwise.sublist (List.take_sublist _ _)
        (sortClassData_sorted _)

/-- C4 (witness): the theorem applied to a one-class project. -/
theorem c4_witness :
    (read_coverage_report fsOneClass "r" none none none).success = true
      ∧ (read_coverage_report fsOneClass "r" none none none).worst_classes.length ≤ 20 :=
  ⟨by decide, (c4_claim fsOneClass "r" none none none (by decide)).2.1⟩

lemma pipeline_lm (fs : FileSystem) (root : String)
    (tm tp tc : Option String) :
    (pipelineResult fs root tm tp tc).lines_missed =
      ((pipelineFiles fs root tm).map
        (specLineMissedAt fs (splitTargets tp) (splitTargets tc))).sum := by
  unfold pipelineResult
  simp only [aggregateResults_eq, List.map_map]
  refine congrArg List.sum ?_
  refine congrArg (fun g => List.map g (pipelineFiles fs root tm)) ?_
  funext p
  exact optField_parseAtPath_lm fs _ _ p

lemma pipeline_lc (fs : FileSystem) (root : String)
    (tm tp tc : Option String) :
    (pipelineResult fs root tm tp tc).lines_covered =
      ((pipelineFiles fs root tm).map
        (specLineCoveredAt fs (splitTargets tp) (splitTargets tc))).sum := by
  unfold pipelineResult
  simp only [aggregateResults_eq, List.map_map]
  refine congrArg List.sum ?_
  refine congrArg (fun g => List.map g (pipelineFiles fs root tm)) ?_
  funext p
  exact optField_parseAtPath_lc fs _ _ p

lemma pipeline_bm (fs : FileSystem) (root : String)
    (tm tp tc : Option String) :
    (pipelineResult fs root tm tp tc).branches_missed =
      ((pipelineFiles fs root tm).map
        (specBranchMissedAt fs (splitTargets tp) (splitTargets tc))).sum := by
  unfold pipelineResult
  simp only [aggregateResults_eq, List.map_map]
  refine congrArg List.sum ?_
  refine congrArg (fun g => List.map g (pipelineFiles fs root tm)) ?_
  funext p
  exact optField_parseAtPath_bm fs _ _ p

lemma pipeline_bc (fs : FileSystem) (root : String)
    (tm tp tc : Option String) :
    (pipelineResult fs root tm tp tc).branches_covered =
      ((pipelineFiles fs root tm).map
        (specBranchCoveredAt fs (splitTargets tp) (splitTargets tc))).sum := by
  unfold pipelineResult
  simp only [aggregateResults_eq, List.map_map]
  refine congrArg List.sum ?_
  refine congrArg (fun g => List.map g (pipelineFiles fs root tm)) ?_
  funext p
  exact optField_parseAtPath_bc fs _ _ p

lemma ratio_nonneg (m c : Nat) :
    0 ≤ (if m + c > 0 then (c : ℚ) / ((m : ℚ) + (c : ℚ)) else 0) := by
  split
  · apply div_nonneg (Nat.cast_nonneg c)
    have : (0 : ℚ) ≤ (m : ℚ) := Nat.cast_nonneg m
    have h2 : (0 : ℚ) ≤ (c : ℚ) := Nat.cast_nonneg c
    linarith
  · norm_num

lemma ratio_le_one (m c : Nat) :
    (if m + c > 0 then (c : ℚ) / ((m : ℚ) + (c : ℚ)) else 0) ≤ 1 := by
  split
  · rename_i hpos
    rw [div_le_one]
    · have : (0 : ℚ) ≤ (m : ℚ) := Nat.cast_nonneg m
      linarith
    · have : ((0 : Nat) : ℚ) < ((m + c : Nat) : ℚ) := by
        exact_mod_cast hpos
      push_cast at this
      linarith
  · norm_num

/-- C5: for every successful call, `lineCoverage` equals
`totalLineCovered / (totalLineMissed + totalLineCovered)` when the
denominator is positive and `0.0` otherwise (identically for branches),
both values lie in `[0, 1]`, and the four totals are sums, over the
discovered files, of the counters of exactly the classes that survived
the scope filter. -/
theorem c5_claim (fs : FileSystem) (root : String)
    (tm tp tc : Option String)
    (h : (read_coverage_report fs root tm tp tc).success = true) :
    ((read_coverage_report fs root tm tp tc).line_coverage =
        if (pipelineResult fs root tm tp tc).lines_missed +
            (pipelineResult fs root tm tp tc).lines_covered > 0 then
          ((pipelineResult fs root tm tp tc).lines_covered : ℚ) /
            (((pipelineResult fs root tm tp tc).lines_missed : ℚ) +
              ((pipelineResult fs root tm tp tc).lines_covered : ℚ))
        else 0)
      ∧ ((read_coverage_report fs root tm tp tc).branch_coverage =
          if (pipelineResult fs root tm tp tc).branches_missed +
              (pipelineResult fs root tm tp tc).branches_covered > 0 then
            ((pipelineResult fs root tm tp tc).branches_covered : ℚ) /
              (((pipelineResult fs root tm tp tc).branches_missed : ℚ) +
                ((pipelineResult fs root tm tp tc).branches_covered : ℚ))
          else 0)
      ∧ 0 ≤ (read_coverage_report fs root tm tp tc).line_coverage
      ∧ (read_coverage_report fs root tm tp tc).line_coverage ≤ 1
      ∧ 0 ≤ (read_coverage_report fs root tm tp tc).branch_coverage
      ∧ (read_coverage_report fs root tm tp tc).branch_coverage ≤ 1
      ∧ (pipelineResult fs root tm tp tc).lines_missed =
          ((pipelineFiles fs root tm).map
            (specLineMissedAt fs (splitTargets tp) (splitTargets tc))).sum
      ∧ (pipelineResult fs root tm tp tc).lines_covered =
          ((pipelineFiles fs root tm).map
            (specLineCoveredAt fs (splitTargets tp) (splitTargets tc))).sum
      ∧ (pipelineResult fs root tm tp tc).branches_missed =
          ((pipelineFiles fs root tm).map
            (specBranchMissedAt fs (splitTargets tp) (splitTargets tc))).sum
      ∧ (pipelineResult fs root tm tp tc).branches_covered =
          ((pipelineFiles fs root tm).map
            (specBranchCoveredAt fs (splitTargets tp) (splitTargets tc))).sum := by
  by_cases he : (pipelineFiles fs root tm).isEmpty
  · exact absurd h (by simp [read_coverage_report, he])
  · have hr : read_coverage_report fs root tm tp tc =
        finalize (pipelineResult fs root tm tp tc) := by
      simp [read_coverage_report, he]
    rw [hr]
    exact ⟨rfl, rfl,
      ratio_nonneg _ _, ratio_le_one _ _, ratio_nonneg _ _, ratio_le_one _ _,
      pipeline_lm fs root tm tp tc, pipeline_lc fs root tm tp tc,
      pipeline_bm fs root tm tp tc, pipeline_bc fs root tm tp tc⟩

/-- C5 (witness): the theorem applied to a one-class project. -/
theorem c5_witness :
    (read_coverage_report fsOneClass "r" none none none).success = true
      ∧ (read_coverage_report fsOneClass "r" none none none).line_coverage ≤ 1 :=
  ⟨by decide, (c5_claim fsOneClass "r" none none none (by decide)).2.2.2.1⟩

lemma isEmpty_false_of_ne {α : Type} {l : List α} (h : l ≠ []) :
    l.isEmpty = false := by
  cases l with
  | nil => exact absurd rfl h
  | cons a l => rfl

/-- C6 (counterexample): a standards document whose directive line
matches the spec's regex `(?:Report Path|Jacoco.*Report):\s*<path>` and
whose resolved path exists is NOT used as the sole report source: the
code's regex requires the literal `Jacoco Report`, so discovery falls
through to the root-level probe instead. -/
theorem c6_counterexample :
    specFindDirective contentSpecOnly.data = some "r.xml"
      ∧ fsSpecDirective.standardsDoc = some contentSpecOnly
      ∧ fileExists fsSpecDirective (joinPath "root" "r.xml") = true
      ∧ discoverReports fsSpecDirective "root" [] ≠ [joinPath "root" "r.xml"] := by
  decide

/-- C6 (amended): discovery follows the tiered order with first success
winning, with the directive regex being the code's
`(?:Report Path|Jacoco Report):\s*<path>` (no `.*` between `Jacoco` and
`Report`): a matching directive whose resolved path exists is the sole
source; otherwise the conventional reports of exactly the target modules
that have one (root aggregates ignored); otherwise the fixed root-level
paths in priority order; otherwise the recursive search returns all
matches. -/
theorem c6_claim (fs : FileSystem) (root : String) (tm : List String) :
    (∀ content tok, fs.standardsDoc = some content →
        findDirective content.data = some tok →
        fileExists fs (joinPath root tok) = true →
        discoverReports fs root tm = [joinPath root tok])
      ∧ (tier1 fs root = [] → moduleReports fs root tm ≠ [] →
          discoverReports fs root tm = moduleReports fs root tm)
      ∧ (tier1 fs root = [] → moduleReports fs root tm = [] →
          fileExists fs (stdRootPath root) = true →
          discoverReports fs root tm = [stdRootPath root])
      ∧ (tier1 fs root = [] → moduleReports fs root tm = [] →
          fileExists fs (stdRootPath root) = false →
          fileExists fs (aggRootPath root) = true →
          discoverReports fs root tm = [aggRootPath root])
      ∧ (tier1 fs root = [] → moduleReports fs root tm = [] →
          fileExists fs (stdRootPath root) = false →
          fileExists fs (aggRootPath root) = false →
          discoverReports fs root tm = globReports fs root) := by
  refine ⟨?_, ?_, ?_, ?_, ?_⟩
  · intro content tok hdoc hdir hex
    have h1 : tier1 fs root = [joinPath root tok] := by
      simp [tier1, hdoc, hdir, hex]
    simp [discoverReports, h1]
  · intro h1 h2
    simp [discoverReports, h1, isEmpty_false_of_ne h2]
  · intro h1 h2 h3
    simp [discoverReports, h1, h2, h3]
  · intro h1 h2 h3 h4
    simp [discoverReports, h1, h2, h3, h4]
  · intro h1 h2 h3 h4
    simp [discoverReports, h1, h2, h3, h4]

/-- C6 (witness): tier 2 applied to a project where module `mod-a` has
its conventional report while a root-level standard report also exists —
exactly the module report is used. -/
theorem c6_witness :
    tier1 fsModuleTier "root" = []
      ∧ moduleReports fsModuleTier "root" ["mod-a"] =
          [moduleReportPath "root" "mod-a"]
      ∧ discoverReports fsModuleTier "root" ["mod-a"] =
          moduleReports fsModuleTier "root" ["mod-a"] :=
  ⟨by decide, by decide,
    (c6_claim fsModuleTier "root" ["mod-a"]).2.1 (by decide) (by decide)⟩

lemma finalize_ratios_congr (A B : ParseResult)
    (h1 : A.lines_missed = B.lines_missed)
    (h2 : A.lines_covered = B.lines_covered)
    (h3 : A.branches_missed = B.branches_missed)
    (h4 : A.branches_covered = B.branches_covered) :
    (finalize A).line_coverage = (finalize B).line_coverage
      ∧ (finalize A).branch_coverage = (finalize B).branch_coverage := by
  constructor
  · show (if A.lines_missed + A.lines_covered > 0 then
        (A.lines_covered : ℚ) / ((A.lines_missed : ℚ) + (A.lines_covered : ℚ))
      else 0) = _
    rw [h1, h2]
    rfl
  · show (if A.branches_missed + A.branches_covered > 0 then
        (A.branches_covered : ℚ) /
          ((A.branches_missed : ℚ) + (A.branches_covered : ℚ))
      else 0) = _
    rw [h3, h4]
    rfl

/-- C8 (counterexample): permuting the merge order changes the
`worstClasses` sequence when two classes from different files tie on
coverage ratio, because the stable sort keeps them in concatenation
order; so the output summary is not identical under permutation. -/
theorem c8_counterexample :
    ([fileB, fileA] : List JFile).Perm [fileA, fileB]
      ∧ aggregateFiles [] [] [fileA, fileB] ≠
          aggregateFiles [] [] [fileB, fileA] := by
  constructor
  · exact List.Perm.swap fileA fileB []
  · have e1 : (aggregateFiles [] [] [fileA, fileB]).worst_classes =
        ["com.x.A", "com.x.B"] := by
      norm_num [aggregateFiles, parse_and_filter_report, parseStep,
        processPackage, processClass, packageSkipped, matchesExclusion,
        classTargetMatch, classAccOf, processCounter, emptyResult,
        aggregateResults, aggStep, mergeResults, finalize, sortClassData,
        List.insertionSort, List.orderedInsert, recordLe, normalizeName,
        fileA, fileB, excludeLiterals, lowerStr, listHasSub, listIsPre]
      decide
    have e2 : (aggregateFiles [] [] [fileB, fileA]).worst_classes =
        ["com.x.B", "com.x.A"] := by
      norm_num [aggregateFiles, parse_and_filter_report, parseStep,
        processPackage, processClass, packageSkipped, matchesExclusion,
        classTargetMatch, classAccOf, processCounter, emptyResult,
        aggregateResults, aggStep, mergeResults, finalize, sortClassData,
        List.insertionSort, List.orderedInsert, recordLe, normalizeName,
        fileA, fileB, excludeLiterals, lowerStr, listHasSub, listIsPre]
      decide
    intro h
    have h2 := congrArg CoverageSummaryResponse.worst_classes h
    rw [e1, e2] at h2
    exact absurd h2 (by decide)

lemma response_eq_of_fields (x y : CoverageSummaryResponse)
    (h1 : x.success = y.success) (h2 : x.error = y.error)
    (h3 : x.line_coverage = y.line_coverage)
    (h4 : x.branch_coverage = y.branch_coverage)
    (h5 : x.worst_classes = y.worst_classes) : x = y := by
  cases x
  cases y
  dsimp at h1 h2 h3 h4 h5
  rw [h1, h2, h3, h4, h5]

/-- C8 (amended): permuting the merge order preserves `success`,
`lineCoverage` and `branchCoverage`; it yields the identical
`CoverageSummary` — the same `worstClasses` sequence included — whenever
the merged class records carry pairwise-distinct coverage ratios (under
ties the stable sort keeps concatenation order, so the sequence may
differ); and merging two disjoint single-file results equals parsing
both files in one call. -/
theorem c8_claim (tp tc : List String) :
    (∀ files1 files2 : List JFile, files1.Perm files2 →
        (aggregateFiles tp tc files1).success =
            (aggregateFiles tp tc files2).success
          ∧ (aggregateFiles tp tc files1).line_coverage =
              (aggregateFiles tp tc files2).line_coverage
          ∧ (aggregateFiles tp tc files1).branch_coverage =
              (aggregateFiles tp tc files2).branch_coverage
          ∧ (((combinedClassData tp tc files1).map Prod.snd).Nodup →
              aggregateFiles tp tc files1 = aggregateFiles tp tc files2))
      ∧ (∀ (f1 f2 : JFile) (r1 r2 : ParseResult),
          parse_and_filter_report tp tc f1 = some r1 →
          parse_and_filter_report tp tc f2 = some r2 →
          (r1.class_data.map Prod.fst).Disjoint (r2.class_data.map Prod.fst) →
          finalize (mergeResults r1 r2) = aggregateFiles tp tc [f1, f2]) := by
  constructor
  · intro files1 files2 hp
    have hrs : (files1.map (parse_and_filter_report tp tc)).Perm
        (files2.map (parse_and_filter_report tp tc)) :=
      hp.map _
    have hlm : (aggregateResults (files1.map (parse_and_filter_report tp tc))).lines_missed =
        (aggregateResults (files2.map (parse_and_filter_report tp tc))).lines_missed := by
      rw [aggregateResults_eq, aggregateResults_eq]
      exact (hrs.map (optField ParseResult.lines_missed)).sum_eq
    have hlc : (aggregateResults (files1.map (parse_and_filter_report tp tc))).lines_covered =
        (aggregateResults (files2.map (parse_and_filter_report tp tc))).lines_covered := by
      rw [aggregateResults_eq, aggregateResults_eq]
      exact (hrs.map (optField ParseResult.lines_covered)).sum_eq
    have hbm : (aggregateResults (files1.map (parse_and_filter_report tp tc))).branches_missed =
        (aggregateResults (files2.map (parse_and_filter_report tp tc))).branches_missed := by
      rw [aggregateResults_eq, aggregateResults_eq]
      exact (hrs.map (optField ParseResult.branches_missed)).sum_eq
    have hbc : (aggregateResults (files1.map (parse_and_filter_report tp tc))).branches_covered =
        (aggregateResults (files2.map (parse_and_filter_report tp tc))).branches_covered := by
      rw [aggregateResults_eq, aggregateResults_eq]
      exact (hrs.map (optField ParseResult.branches_covered)).sum_eq
    have hcongr := finalize_ratios_congr _ _ hlm hlc hbm hbc
    refine ⟨rfl, hcongr.1, hcongr.2, ?_⟩
    intro hnod
    have hd1 : (aggregateResults (files1.map (parse_and_filter_report tp tc))).class_data =
        combinedClassData tp tc files1 := by
      rw [aggregateResults_eq]
      rfl
    have hd2 : (aggregateResults (files2.map (parse_and_filter_report tp tc))).class_data =
        combinedClassData tp tc files2 := by
      rw [aggregateResults_eq]
      rfl
    have hpdata : (combinedClassData tp tc files1).Perm
        (combinedClassData tp tc files2) :=
      (hrs.map optData).flatten
    have hsort := sortClassData_eq_of_perm _ _ hpdata hnod
    have hworst : (aggregateFiles tp tc files1).worst_classes =
        (aggregateFiles tp tc files2).worst_classes := by
      show ((sortClassData (aggregateResults (files1.map (parse_and_filter_report tp tc))).class_data).take 20).map Prod.fst =
        ((sortClassData (aggregateResults (files2.map (parse_and_filter_report tp tc))).class_data).take 20).map Prod.fst
      rw [hd1, hd2, hsort]
    exact response_eq_of_fields _ _ rfl rfl hcongr.1 hcongr.2 hworst
  · intro f1 f2 r1 r2 h1 h2 _
    calc finalize (mergeResults r1 r2)
        = finalize (mergeResults (mergeResults emptyResult r1) r2) := by
          rw [mergeResults_empty_left]
      _ = aggregateFiles tp tc [f1, f2] := by
          unfold aggregateFiles aggregateResults
          rw [List.map_cons, List.map_cons, List.map_nil, h1, h2]
          rfl

/-- C8 (witness): the amended statement applied to concrete reports —
the ratio permutation invariance on the tied pair `fileA`/`fileB`, the
full-summary equality on the distinct-ratio pair `fileA`/`fileD`, and
the disjoint merge equality. -/
theorem c8_witness :
    (aggregateFiles [] [] [fileA, fileB]).line_coverage =
        (aggregateFiles [] [] [fileB, fileA]).line_coverage
      ∧ aggregateFiles [] [] [fileA, fileD] =
          aggregateFiles [] [] [fileD, fileA]
      ∧ finalize (mergeResults resA resB) = aggregateFiles [] [] [fileA, fileB] := by
  refine ⟨?_, ?_, ?_⟩
  · exact ((c8_claim [] []).1 [fileA, fileB] [fileB, fileA]
      (List.Perm.swap fileB fileA [])).2.1
  · refine ((c8_claim [] []).1 [fileA, fileD] [fileD, fileA]
      (List.Perm.swap fileD fileA [])).2.2.2 ?_
    show ([((1 : Nat) : ℚ) / (((1 : Nat) : ℚ) + ((1 : Nat) : ℚ)),
      ((3 : Nat) : ℚ) / (((1 : Nat) : ℚ) + ((3 : Nat) : ℚ))]).Nodup
    norm_num [List.nodup_cons]
  · refine (c8_claim [] []).2 fileA fileB resA resB rfl rfl ?_
    intro a ha hb
    simp [resA] at ha
    simp [resB] at hb
    rw [ha] at hb
    exact absurd hb (by decide)

/-- C10 (witness): the theorem applied to a file that yields a package
with counters and then raises, placed between two valid files. -/
theorem c10_witness :
    JItem.corrupt ∈ fileMidCorrupt
      ∧ parse_and_filter_report [] [] fileMidCorrupt = none
      ∧ aggregateFiles [] [] [fileA, fileMidCorrupt, fileB] =
          aggregateFiles [] [] [fileA, fileB] := by
  refine ⟨by decide, ?_, ?_⟩
  · exact (c10_claim [] [] fileMidCorrupt [fileA] [fileB] (by decide)).1
  · exact (c10_claim [] [] fileMidCorrupt [fileA] [fileB] (by decide)).2

end CoverageSubagent
